import Mathlib

/-!
Verification of the bcomms speaking-practice app's transcription pipeline.

Strings of the TypeScript source are modelled as `List Char` (`Str`), and the
JavaScript string operations used by the code (`trim`, `split(' ')`, `join(' ')`,
`includes`, `indexOf`, `substring`, `slice(-3)`, `replace(/\s+/g, ' ')`) are
defined below with JS semantics (ASCII whitespace set).
-/

namespace BComms

/-- Strings of the source, as lists of characters. -/
abbrev Str := List Char

/-- The whitespace characters matched by the JS regex class and `trim`
(restricted to the ASCII range, which is all the app ever produces). -/
def jsWs (c : Char) : Bool :=
  c = ' ' || c = '\t' || c = '\n' || c = '\r' || c = '\x0b' || c = '\x0c'

/-- Remove trailing whitespace (the right half of JS `String.prototype.trim`). -/
def trimR : Str → Str
  | [] => []
  | a :: as =>
    let r := trimR as
    if r = [] && jsWs a then [] else a :: r

/-- JS `String.prototype.trim`: drop leading and trailing whitespace. -/
def jsTrim (s : Str) : Str :=
  trimR (s.dropWhile jsWs)

/-- Collapse every maximal whitespace run to a single space; the flag records
whether the previous character was whitespace.  `collapseWs` is JS
`s.replace(/\s+/g, ' ')`. -/
def collapseAux : Bool → Str → Str
  | _, [] => []
  | prevWs, a :: as =>
    if jsWs a then
      if prevWs then collapseAux true as else ' ' :: collapseAux true as
    else a :: collapseAux false as

/-- JS `s.replace(/\s+/g, ' ')`. -/
def collapseWs (s : Str) : Str := collapseAux false s

/-- `s.replace(/\s+/g, ' ').trim()` — the normalization applied by
`processTranscription` after every merge. -/
def normalizeWs (s : Str) : Str := jsTrim (collapseWs s)

/-- JS `s.split(sep)` for a one-character separator: splits at every
occurrence and keeps empty pieces (`''.split(' ') = ['']`). -/
def splitChar (sep : Char) : Str → List Str
  | [] => [[]]
  | a :: as =>
    match splitChar sep as with
    | [] => [[]]
    | g :: gs => if a = sep then [] :: g :: gs else (a :: g) :: gs

/-- JS `pieces.join(' ')`. -/
def joinSp : List Str → Str
  | [] => []
  | [x] => x
  | x :: y :: r => x ++ ' ' :: joinSp (y :: r)

/-- JS `l.slice(-n)`: the last `n` elements (all of them when fewer). -/
def lastN (n : Nat) (l : List Str) : List Str := l.drop (l.length - n)

/-- Does `s` start with `pat`? (helper for `idxOf?`). -/
def startsWith : Str → Str → Bool
  | _, [] => true
  | [], _ :: _ => false
  | a :: s, b :: p => a = b && startsWith s p

/-- JS `s.indexOf(pat)`, as an `Option`: the least index where `pat` occurs
in `s`, or `none` (JS returns `-1`). -/
def idxOf? : Str → Str → Option Nat
  | s, pat =>
    if startsWith s pat then some 0
    else
      match s with
      | [] => none
      | _ :: t => (idxOf? t pat).map (· + 1)

/-- JS `s.includes(pat)`. -/
def includes (s pat : Str) : Bool := (idxOf? s pat).isSome

/-- The trailing-word window used for overlap detection:
`currentText.split(' ').slice(-3).join(' ')`. -/
def lastWords (c : Str) : Str := joinSp (lastN 3 (splitChar ' ' c))

/-! ## Transcript fragments (`rev-ai-service.ts`) -/

/-- The `type` field of a `RevAiTranscriptMessage`
(`'connected' | 'partial' | 'final'`; `interim` stands for `'partial'`,
which Lean reserves). -/
inductive MsgType
  | connected
  | interim
  | final
  deriving DecidableEq, Repr

/-- The `type` field of a `RevAiTranscriptElement` (`'text' | 'punct'`). -/
inductive ElType
  | text
  | punct
  deriving DecidableEq, Repr

/-- A `RevAiTranscriptElement`: element value plus optional confidence
(confidence numbers are modelled as rationals). -/
structure El where
  type : ElType
  value : Str
  confidence : Option ℚ
  deriving DecidableEq, Repr

/-- A `RevAiTranscriptMessage` (the fields the client reads). -/
structure Msg where
  type : MsgType
  id : Option Str
  elements : List El
  deriving DecidableEq, Repr

/-- The element-value concatenation loop of `processTranscription`
(`transcriptText += element.value`). -/
def extractText (els : List El) : Str :=
  els.foldl (fun acc el => acc ++ el.value) []

/-- The confidence accumulation loop of `processTranscription`:
sum and count over `text` elements carrying a confidence. -/
def confStats (els : List El) : ℚ × Nat :=
  els.foldl
    (fun p el =>
      match el.type, el.confidence with
      | ElType.text, some q => (p.1 + q, p.2 + 1)
      | _, _ => p)
    (0, 0)

/-- `confidenceCount > 0 ? confidenceSum / confidenceCount : undefined`. -/
def avgConfidence (els : List El) : Option ℚ :=
  let p := confStats els
  if p.2 > 0 then some (p.1 / p.2) else none

/-- A `TranscriptionResult`. -/
structure TranscriptionResult where
  text : Str
  isFinal : Bool
  confidence : Option ℚ
  deriving DecidableEq, Repr

/-- `RevAiService.processTranscription` (identical in
`rev-ai-service.ts` and in the `groq-service.ts` copy of the class), as a
function from the current running transcript and the incoming message to the
new running transcript and the returned `TranscriptionResult`. -/
def processTranscription (c : Str) (m : Msg) : Str × TranscriptionResult :=
  let t := extractText m.elements
  let c1 :=
    if m.type = MsgType.final then
      if (jsTrim t).length > 0 then
        if includes c t = true ∧ c.length > t.length then c else t
      else c
    else if m.type = MsgType.interim ∧ (jsTrim t).length > 0 then
      let clean := jsTrim t
      if c.length = 0 then clean
      else
        let words := splitChar ' ' c
        let lw := joinSp (lastN 3 words)
        if includes clean lw = true then
          let i := (idxOf? clean lw).getD 0
          let nc := clean.drop (i + lw.length)
          if (jsTrim nc).length > 0 then c ++ nc else c
        else if ¬ includes c clean = true then c ++ ' ' :: clean
        else c
    else c
  let c2 := normalizeWs c1
  (c2, ⟨c2, m.type = MsgType.final, avgConfidence m.elements⟩)

/-- A message whose single `text` element carries the fragment text `t`. -/
def mkMsg (k : MsgType) (t : Str) : Msg := ⟨k, none, [⟨ElType.text, t, none⟩]⟩

/-- Processing one `partial` fragment with text `t` (running-transcript part). -/
def processInterimText (c t : Str) : Str :=
  (processTranscription c (mkMsg MsgType.interim t)).1

/-- Processing a sequence of `partial` fragment texts in order. -/
def processInterims (c : Str) (ts : List Str) : Str :=
  ts.foldl processInterimText c

/-! ## String lemmas -/

theorem startsWith_iff (s p : Str) : startsWith s p = true ↔ ∃ r, s = p ++ r := by
  induction s generalizing p with
  | nil =>
    cases p with
    | nil => simp [startsWith]
    | cons b p => simp [startsWith]
  | cons a s ih =>
    cases p with
    | nil => simp [startsWith]
    | cons b p =>
      simp only [startsWith, Bool.and_eq_true, decide_eq_true_eq, List.cons_append,
        List.cons.injEq, ih]
      constructor
      · rintro ⟨rfl, r, rfl⟩; exact ⟨r, rfl, rfl⟩
      · rintro ⟨r, rfl, rfl⟩; exact ⟨rfl, r, rfl⟩

theorem includes_exists {s pat : Str} (h : includes s pat = true) :
    ∃ a b, s = a ++ pat ++ b := by
  unfold includes at h
  induction s with
  | nil =>
    rw [idxOf?] at h
    by_cases hsw : startsWith [] pat = true
    · obtain ⟨r, hr⟩ := (startsWith_iff [] pat).1 hsw
      exact ⟨[], r, by simpa using hr⟩
    · simp [hsw] at h
  | cons a t ih =>
    rw [idxOf?] at h
    by_cases hsw : startsWith (a :: t) pat = true
    · obtain ⟨r, hr⟩ := (startsWith_iff (a :: t) pat).1 hsw
      exact ⟨[], r, by simpa using hr⟩
    · simp only [hsw, Bool.false_eq_true, if_false] at h
      have h2 : (idxOf? t pat).isSome = true := by
        cases hm : idxOf? t pat with
        | none => rw [hm] at h; simp at h
        | some i => rfl
      obtain ⟨x, y, hxy⟩ := ih h2
      exact ⟨a :: x, y, by simp [hxy]⟩

theorem includes_length_le {s pat : Str} (h : includes s pat = true) :
    pat.length ≤ s.length := by
  obtain ⟨a, b, rfl⟩ := includes_exists h
  simp only [List.length_append]
  omega

theorem includes_eq_of_length_le {s pat : Str} (h : includes s pat = true)
    (hl : s.length ≤ pat.length) : s = pat := by
  obtain ⟨a, b, rfl⟩ := includes_exists h
  simp only [List.length_append] at hl
  have ha : a = [] := List.length_eq_zero.1 (by omega)
  have hb : b = [] := List.length_eq_zero.1 (by omega)
  simp [ha, hb]

theorem splitChar_ne_nil (sep : Char) (s : Str) : splitChar sep s ≠ [] := by
  cases s with
  | nil => simp [splitChar]
  | cons a as =>
    rw [splitChar]
    cases h : splitChar sep as with
    | nil => simp
    | cons g gs =>
      by_cases hsep : a = sep <;> simp [hsep]

theorem joinSp_cons (x : Str) (l : List Str) :
    joinSp (x :: l) = if l = [] then x else x ++ ' ' :: joinSp l := by
  cases l with
  | nil => simp [joinSp]
  | cons y r => simp [joinSp]

theorem joinSp_splitChar (c : Str) : joinSp (splitChar ' ' c) = c := by
  induction c with
  | nil => rfl
  | cons a as ih =>
    rw [splitChar]
    cases h : splitChar ' ' as with
    | nil => exact absurd h (splitChar_ne_nil ' ' as)
    | cons g gs =>
      dsimp only
      rw [h] at ih
      by_cases ha : a = ' '
      · subst ha
        rw [if_pos rfl, joinSp_cons, if_neg (by simp), ih]
        simp
      · simp only [if_neg ha]
        cases gs with
        | nil =>
          rw [joinSp_cons, if_pos rfl]
          rw [joinSp_cons, if_pos rfl] at ih
          rw [ih]
        | cons g2 r =>
          rw [joinSp_cons, if_neg (by simp)]
          rw [joinSp_cons, if_neg (by simp)] at ih
          rw [← ih]
          simp

theorem joinSp_append_exists (A B : List Str) (hB : B ≠ []) :
    ∃ pre, joinSp (A ++ B) = pre ++ joinSp B := by
  induction A with
  | nil => exact ⟨[], rfl⟩
  | cons x A ih =>
    obtain ⟨pre, hpre⟩ := ih
    have hAB : A ++ B ≠ [] := by
      intro h
      rcases List.append_eq_nil.1 h with ⟨_, h2⟩
      exact hB h2
    refine ⟨x ++ ' ' :: pre, ?_⟩
    rw [List.cons_append, joinSp_cons, if_neg hAB, hpre]
    simp

theorem lastWords_exists_pre (c : Str) : ∃ pre, c = pre ++ lastWords c := by
  unfold lastWords lastN
  set pieces := splitChar ' ' c with hp
  have hne : pieces ≠ [] := splitChar_ne_nil ' ' c
  set k := pieces.length - 3 with hk
  have h1 : 0 < pieces.length := List.length_pos.2 hne
  have hdrop : pieces.drop k ≠ [] := by
    intro h
    rw [List.drop_eq_nil_iff] at h
    omega
  obtain ⟨pre, hpre⟩ := joinSp_append_exists (pieces.take k) (pieces.drop k) hdrop
  refine ⟨pre, ?_⟩
  conv_lhs => rw [← joinSp_splitChar c, ← hp, ← List.take_append_drop k pieces]
  exact hpre

theorem lastWords_length_le (c : Str) : (lastWords c).length ≤ c.length := by
  obtain ⟨pre, hpre⟩ := lastWords_exists_pre c
  have h := congrArg List.length hpre
  simp only [List.length_append] at h
  omega

/-! ## Lemmas about whitespace normalization -/

theorem trimR_cons (a : Char) (u : Str) :
    trimR (a :: u) = if trimR u = [] ∧ jsWs a = true then [] else a :: trimR u := by
  rw [trimR]
  by_cases h1 : trimR u = [] <;> by_cases h2 : jsWs a = true <;>
    simp [h1, h2]

theorem trimR_cons_not_ws {a : Char} {u : Str} (h : jsWs a = false) :
    trimR (a :: u) = a :: trimR u := by
  rw [trimR_cons, if_neg]
  rintro ⟨_, h2⟩
  rw [h] at h2
  cases h2

theorem trimR_idem (u : Str) : trimR (trimR u) = trimR u := by
  induction u with
  | nil => rfl
  | cons a u ih =>
    rw [trimR_cons]
    by_cases hc : trimR u = [] ∧ jsWs a = true
    · rw [if_pos hc]; rfl
    · rw [if_neg hc, trimR_cons, ih, if_neg hc]

theorem dropWhile_head_not (p : Char → Bool) :
    ∀ (s : Str) (a : Char) (t : Str), s.dropWhile p = a :: t → p a = false := by
  intro s
  induction s with
  | nil => intro a t h; cases h
  | cons b bs ih =>
    intro a t h
    rw [List.dropWhile_cons] at h
    by_cases hb : p b = true
    · rw [if_pos hb] at h; exact ih a t h
    · rw [if_neg hb] at h
      cases h
      exact Bool.eq_false_iff.2 hb

theorem jsTrim_idem (s : Str) : jsTrim (jsTrim s) = jsTrim s := by
  unfold jsTrim
  have hdw : (trimR (s.dropWhile jsWs)).dropWhile jsWs = trimR (s.dropWhile jsWs) := by
    cases hv : s.dropWhile jsWs with
    | nil => rfl
    | cons a t =>
      have ha : jsWs a = false := dropWhile_head_not jsWs s a t hv
      rw [trimR_cons_not_ws ha, List.dropWhile_cons, if_neg (by simp [ha])]
  rw [hdw, trimR_idem]

theorem jsTrim_of_normalized {s : Str} (h : normalizeWs s = s) : jsTrim s = s := by
  conv_lhs => rw [← h]
  unfold normalizeWs
  rw [jsTrim_idem]
  exact h

theorem collapse_true_head :
    ∀ (s : Str) (a : Char) (t : Str), collapseAux true s = a :: t → jsWs a = false := by
  intro s
  induction s with
  | nil => intro a t h; cases h
  | cons b bs ih =>
    intro a t h
    rw [collapseAux] at h
    by_cases hb : jsWs b = true
    · simp only [hb, if_true] at h
      exact ih a t h
    · simp only [hb, Bool.false_eq_true, if_false] at h
      cases h
      exact Bool.eq_false_iff.2 hb

theorem dropWhile_collapse_true (t : Str) :
    (collapseAux true t).dropWhile jsWs = collapseAux true t := by
  cases h : collapseAux true t with
  | nil => rfl
  | cons a u =>
    have ha : jsWs a = false := collapse_true_head t a u h
    rw [List.dropWhile_cons, if_neg (by simp [ha])]

theorem trimR_space_len (u : Str) :
    (trimR (' ' :: u)).length = if trimR u = [] then 0 else (trimR u).length + 1 := by
  rw [trimR_cons]
  by_cases h : trimR u = []
  · rw [if_pos ⟨h, by decide⟩, if_pos h]; rfl
  · rw [if_neg (by simp [h]), if_neg h]; rfl

theorem trimR_collapse_len_mono (x : Str) :
    ∀ (s : Str) (b : Bool),
      (trimR (collapseAux b s)).length ≤ (trimR (collapseAux b (s ++ x))).length := by
  intro s
  induction s with
  | nil => intro b; simp [collapseAux, trimR]
  | cons a as ih =>
    intro b
    rw [List.cons_append, collapseAux, collapseAux]
    by_cases ha : jsWs a = true
    · cases b with
      | true =>
        simp only [ha, if_true]
        exact ih true
      | false =>
        simp only [ha, if_true, Bool.false_eq_true, if_false]
        rw [trimR_space_len, trimR_space_len]
        by_cases htu : trimR (collapseAux true as) = []
        · rw [if_pos htu]; omega
        · rw [if_neg htu]
          have hkey := ih true
          have htux : trimR (collapseAux true (as ++ x)) ≠ [] := by
            intro h0
            rw [h0] at hkey
            simp only [List.length_nil, Nat.le_zero, List.length_eq_zero] at hkey
            exact htu hkey
          rw [if_neg htux]
          omega
    · have ha2 : jsWs a = false := Bool.eq_false_iff.2 ha
      simp only [ha, Bool.false_eq_true, if_false]
      rw [trimR_cons_not_ws ha2, trimR_cons_not_ws ha2]
      simpa using ih false

theorem normalizeWs_length_mono (s x : Str) :
    (normalizeWs s).length ≤ (normalizeWs (s ++ x)).length := by
  unfold normalizeWs jsTrim collapseWs
  cases s with
  | nil => simp [collapseAux, trimR]
  | cons a as =>
    rw [List.cons_append, collapseAux, collapseAux]
    by_cases ha : jsWs a = true
    · simp only [ha, if_true, Bool.false_eq_true, if_false]
      rw [List.dropWhile_cons, if_pos (by decide), List.dropWhile_cons,
        if_pos (by decide), dropWhile_collapse_true, dropWhile_collapse_true]
      exact trimR_collapse_len_mono x as true
    · have ha2 : jsWs a = false := Bool.eq_false_iff.2 ha
      simp only [ha, Bool.false_eq_true, if_false]
      rw [List.dropWhile_cons, if_neg (by simp [ha2]), List.dropWhile_cons,
        if_neg (by simp [ha2]), trimR_cons_not_ws ha2, trimR_cons_not_ws ha2]
      simpa using trimR_collapse_len_mono x as false

/-! ## Behaviour of `processTranscription` -/

/-- Shape of `processTranscription` on a `final` message. -/
theorem processTranscription_final (c t : Str) (m : Msg)
    (hty : m.type = MsgType.final) (hext : extractText m.elements = t) :
    (processTranscription c m).1 =
      normalizeWs
        (if (jsTrim t).length > 0 then
          if includes c t = true ∧ c.length > t.length then c else t
        else c) := by
  unfold processTranscription
  rw [hext]
  simp [hty]

/-- Shape of `processTranscription` on a `partial` message. -/
theorem processTranscription_interim (c t : Str) (m : Msg)
    (hty : m.type = MsgType.interim) (hext : extractText m.elements = t) :
    (processTranscription c m).1 =
      normalizeWs
        (if (jsTrim t).length > 0 then
          if c.length = 0 then jsTrim t
          else if includes (jsTrim t) (lastWords c) = true then
            if (jsTrim ((jsTrim t).drop
                ((idxOf? (jsTrim t) (lastWords c)).getD 0 +
                  (lastWords c).length))).length > 0 then
              c ++ (jsTrim t).drop
                ((idxOf? (jsTrim t) (lastWords c)).getD 0 + (lastWords c).length)
            else c
          else if ¬ includes c (jsTrim t) = true then c ++ ' ' :: jsTrim t
          else c
        else c) := by
  unfold processTranscription lastWords
  rw [hext]
  simp [hty]

/-- A `final` fragment whose text is contained in the running transcript leaves
a normalized transcript unchanged: either the `includes && longer` guard keeps
the current text, or the contained text has the same length and is therefore
equal to the current text. -/
theorem processFinal_contained {c t : Str} (hc : normalizeWs c = c) (m : Msg)
    (hty : m.type = MsgType.final) (hext : extractText m.elements = t)
    (hinc : includes c t = true) :
    (processTranscription c m).1 = c := by
  rw [processTranscription_final c t m hty hext]
  by_cases hlen : (jsTrim t).length > 0
  · rw [if_pos hlen]
    by_cases hcond : includes c t = true ∧ c.length > t.length
    · rw [if_pos hcond]
      exact hc
    · have hle : c.length ≤ t.length := by
        rcases Decidable.not_and_iff_or_not.1 hcond with h | h
        · exact absurd hinc h
        · omega
      have hct : c = t := includes_eq_of_length_le hinc hle
      rw [if_neg hcond, ← hct]
      exact hc
  · rw [if_neg hlen]
    exact hc

/-- Processing any `partial` fragment never shortens a normalized running
transcript: every branch either keeps the transcript or appends to it before
re-normalizing. -/
theorem processInterim_length_mono {c : Str} (hc : normalizeWs c = c) (m : Msg)
    (hty : m.type = MsgType.interim) :
    c.length ≤ ((processTranscription c m).1).length := by
  rw [processTranscription_interim c (extractText m.elements) m hty rfl]
  set clean := jsTrim (extractText m.elements) with hcl
  set lw := lastWords c with hlw
  by_cases hlen : clean.length > 0
  · rw [if_pos hlen]
    by_cases hc0 : c.length = 0
    · rw [if_pos hc0]
      omega
    · rw [if_neg hc0]
      by_cases hov : includes clean lw = true
      · rw [if_pos hov]
        by_cases hnc : (jsTrim (clean.drop
            ((idxOf? clean lw).getD 0 + lw.length))).length > 0
        · rw [if_pos hnc]
          calc c.length = (normalizeWs c).length := by rw [hc]
            _ ≤ _ := normalizeWs_length_mono c _
        · rw [if_neg hnc, hc]
      · rw [if_neg hov]
        by_cases hdup : includes c clean = true
        · rw [if_neg (by simpa using hdup), hc]
        · rw [if_pos (by simpa using hdup)]
          calc c.length = (normalizeWs c).length := by rw [hc]
            _ ≤ _ := normalizeWs_length_mono c _
  · rw [if_neg hlen, hc]

/-- A `partial` fragment that extends the current transcript verbatim, and in
which the transcript's last-3-word window first occurs exactly at the
transcript's tail, is spliced to become the new transcript. -/
theorem processInterim_extends {c p : Str} (hcn : c ≠ []) (hp : normalizeWs p = p)
    (htake : p.take c.length = c) (hlt : c.length < p.length)
    (hs : jsTrim (p.drop c.length) ≠ [])
    (hidx : idxOf? p (lastWords c) = some (c.length - (lastWords c).length)) :
    processInterimText c p = p := by
  have hclean : jsTrim p = p := jsTrim_of_normalized hp
  have hext : extractText (mkMsg MsgType.interim p).elements = p := by
    simp [mkMsg, extractText]
  rw [processInterimText, processTranscription_interim c p _ rfl hext, hclean]
  have hpne : p ≠ [] := by
    intro h
    subst h
    simp at hlt
  rw [if_pos (List.length_pos.2 hpne)]
  rw [if_neg (fun h => hcn (List.length_eq_zero.1 h))]
  have hinc : includes p (lastWords c) = true := by
    unfold includes
    rw [hidx]
    rfl
  rw [if_pos hinc, hidx]
  simp only [Option.getD_some]
  rw [Nat.sub_add_cancel (lastWords_length_le c)]
  rw [if_pos (List.length_pos.2 hs)]
  have hcp : c ++ p.drop c.length = p := by
    conv_rhs => rw [← List.take_append_drop c.length p]
    rw [htake]
  rw [hcp, hp]

/-- The first fragment fed to an empty transcript is adopted verbatim. -/
theorem processInterim_first {p : Str} (hp : normalizeWs p = p) (hpne : p ≠ []) :
    processInterimText [] p = p := by
  have hclean : jsTrim p = p := jsTrim_of_normalized hp
  have hext : extractText (mkMsg MsgType.interim p).elements = p := by
    simp [mkMsg, extractText]
  rw [processInterimText, processTranscription_interim [] p _ rfl hext, hclean]
  rw [if_pos (List.length_pos.2 hpne), if_pos (by simp)]
  exact hp

/-- One step of an incrementally growing, overlapping fragment sequence:
the new partial extends the current transcript verbatim by a non-whitespace
suffix, is itself whitespace-normalized, and its first occurrence of the
transcript's last-3-word window is at the transcript's tail. -/
def growsStep (c p : Str) : Prop :=
  p.take c.length = c ∧ c.length < p.length ∧ jsTrim (p.drop c.length) ≠ [] ∧
    normalizeWs p = p ∧
    idxOf? p (lastWords c) = some (c.length - (lastWords c).length)

instance (c p : Str) : Decidable (growsStep c p) := by
  unfold growsStep
  infer_instance

/-- A whole fragment sequence grows incrementally from transcript `c`. -/
def growsChain : Str → List Str → Bool
  | _, [] => true
  | c, p :: ps => decide (growsStep c p) && growsChain p ps

theorem processInterims_chain :
    ∀ (ps : List Str) (c : Str), c ≠ [] → normalizeWs c = c →
      growsChain c ps = true → processInterims c ps = ps.getLastD c := by
  intro ps
  induction ps with
  | nil => intro c _ _ _; rfl
  | cons p ps ih =>
    intro c hcn hc hch
    rw [growsChain, Bool.and_eq_true, decide_eq_true_eq] at hch
    obtain ⟨⟨htake, hlt, hs, hp, hidx⟩, hchain⟩ := hch
    have h1 : processInterimText c p = p :=
      processInterim_extends hcn hp htake hlt hs hidx
    have hpne : p ≠ [] := by
      intro h
      subst h
      simp at hlt
    unfold processInterims
    rw [List.foldl_cons, h1, List.getLastD_cons]
    exact ih p hpne hp hchain

/-! ## Claim C1 -/

/-- **C1** (counterexample).  The claim fails as stated: for the incrementally
growing, overlapping partial sequence `"c a b c a b"`, `"c a b c a b d"`
(the second restates the whole transcript and extends it by `" d"`), the
overlap splice uses the FIRST occurrence of the last-3-word window
(`indexOf`), which here sits at index 0 rather than at the transcript's tail,
so the merged transcript duplicates content instead of equalling the
de-duplicated concatenation `"c a b c a b d"`. -/
theorem c1_counterexample :
    processInterims [] ["c a b c a b".toList, "c a b c a b d".toList] =
        "c a b c a b c a b d".toList ∧
      "c a b c a b c a b d".toList ≠ "c a b c a b d".toList := by
  exact ⟨by decide, by decide⟩

/-- **C1** (amended).  For every sequence of partial fragments that grows
incrementally with overlapping content — each new partial restates the whole
transcript so far and extends it by further non-whitespace text — and in which
the transcript's trailing 3-word window first occurs in the new partial at the
transcript's tail (it does not also occur earlier), processing the fragments
in order leaves the running transcript equal to the last fragment, i.e. the
de-duplicated concatenation of their contents.  The example sequence
`"I would"`, `"I would like"`, `"I would like to order"` satisfies the
hypotheses and yields `"I would like to order"` (see the witness). -/
theorem c1_amended_growing_overlap (p : Str) (ps : List Str)
    (hp : normalizeWs p = p) (hpne : p ≠ [])
    (hch : growsChain p ps = true) :
    processInterims [] (p :: ps) = (p :: ps).getLastD [] := by
  rw [List.getLastD_cons]
  unfold processInterims
  rw [List.foldl_cons, processInterim_first hp hpne]
  exact processInterims_chain ps p hpne hp hch

/-- Witness for C1 (amended): the spec's own example run through the amended
theorem. -/
theorem c1_amended_witness :
    normalizeWs "I would".toList = "I would".toList ∧
      "I would".toList ≠ [] ∧
      growsChain "I would".toList
        ["I would like".toList, "I would like to order".toList] = true ∧
      processInterims []
          ["I would".toList, "I would like".toList,
            "I would like to order".toList] =
        "I would like to order".toList := by
  refine ⟨by decide, by decide, by decide, ?_⟩
  have h := c1_amended_growing_overlap "I would".toList
    ["I would like".toList, "I would like to order".toList]
    (by decide) (by decide) (by decide)
  simpa using h

/-! ## Claim C2 -/

/-- **C2** (counterexample).  The claim fails as stated: the running transcript
can shrink without any reset.  Processing the `final` fragment `"bye"` against
the running transcript `"hello world"` replaces the whole transcript (the text
is not contained in it), dropping its length from 11 to 3. -/
theorem c2_counterexample :
    (processTranscription "hello world".toList
        (mkMsg MsgType.final "bye".toList)).1 = "bye".toList ∧
      ("bye".toList : Str).length < ("hello world".toList : Str).length := by
  exact ⟨by decide, by decide⟩

/-- **C2** (amended).  For every `partial` fragment, and for every `final`
fragment whose text is whitespace-only or already contained in the (normalized)
running transcript, processing the fragment never decreases the transcript's
length.  The only shrinking operations are the explicit reset at the start of a
new connection and a `final` fragment carrying new content not contained in the
transcript, which replaces the transcript wholesale (see the counterexample). -/
theorem c2_amended_no_shrink (c : Str) (m : Msg) (hc : normalizeWs c = c)
    (h : m.type = MsgType.interim ∨
      (m.type = MsgType.final ∧ (jsTrim (extractText m.elements) = [] ∨
        includes c (extractText m.elements) = true))) :
    c.length ≤ ((processTranscription c m).1).length := by
  rcases h with hty | ⟨hty, hcase⟩
  · exact processInterim_length_mono hc m hty
  · rcases hcase with hempty | hinc
    · rw [processTranscription_final c (extractText m.elements) m hty rfl]
      rw [if_neg (by rw [hempty]; simp), hc]
    · rw [processFinal_contained hc m hty rfl hinc]

/-- Witness for C2 (amended): a partial fragment appended to the transcript
`"a b"` does not shrink it. -/
theorem c2_amended_witness :
    normalizeWs "a b".toList = "a b".toList ∧
      ("a b".toList : Str).length ≤
        ((processTranscription "a b".toList
          (mkMsg MsgType.interim "b c".toList)).1).length := by
  refine ⟨by decide, ?_⟩
  exact c2_amended_no_shrink "a b".toList (mkMsg MsgType.interim "b c".toList)
    (by decide) (Or.inl rfl)

/-! ## Claim C3 -/

/-- **C3** (confirmed).  A `final` fragment whose non-empty text is already a
substring of the (normalized) running transcript leaves the running transcript
unchanged: the `includes && longer` guard keeps the accumulated text, and when
the lengths tie the contained text is the transcript itself. -/
theorem c3_final_contained_noop (c t : Str) (m : Msg)
    (hc : normalizeWs c = c) (hty : m.type = MsgType.final)
    (hext : extractText m.elements = t) (hne : t ≠ [])
    (hinc : includes c t = true) :
    (processTranscription c m).1 = c :=
  processFinal_contained hc m hty hext hinc

/-- Witness for C3: the contained final fragment `"lo wor"` leaves
`"hello world"` untouched. -/
theorem c3_witness :
    normalizeWs "hello world".toList = "hello world".toList ∧
      includes "hello world".toList "lo wor".toList = true ∧
      (processTranscription "hello world".toList
        (mkMsg MsgType.final "lo wor".toList)).1 = "hello world".toList := by
  refine ⟨by decide, by decide, ?_⟩
  exact c3_final_contained_noop "hello world".toList "lo wor".toList
    (mkMsg MsgType.final "lo wor".toList) (by decide) rfl (by decide)
    (by decide) (by decide)

/-! ## The stream client's connection state

`RevAiService` exists twice in the repository: the version in
`rev-ai-service.ts` (machine `A` below) and the revised copy at the bottom of
`groq-service.ts` (machine `B`).  The per-session fields are `websocket`
(presence of the socket object), `isConnected`, `currentText` and `jobId`.
WebSocket callbacks are modelled as events folded over the state; `malformed`
is a message that fails `JSON.parse` (both versions catch and skip it). -/

structure SvcState where
  websocket : Option Unit
  isConnected : Bool
  currentText : Str
  jobId : Option Str
  deriving DecidableEq, Repr

inductive WsEvent
  | opened
  | message (m : Msg)
  | malformed
  | socketError
  | close
  deriving DecidableEq, Repr

/-- `if (message.id) this.jobId = message.id` (JS truthiness: a non-empty
string). -/
def updateJobId (j : Option Str) (i : Option Str) : Option Str :=
  match i with
  | some v => if v ≠ [] then some v else j
  | none => j

/-- The WebSocket handlers installed by
`RevAiService.establishWebSocketConnection` in `rev-ai-service.ts`:
`onopen` only logs; `onmessage` sets `isConnected := true` on a `connected`
message and otherwise runs `processTranscription`; `onerror` only reports;
`onclose` clears `isConnected`. -/
def stepA (s : SvcState) (e : WsEvent) : SvcState :=
  match e with
  | WsEvent.opened => s
  | WsEvent.message m =>
    match m.type with
    | MsgType.connected =>
      { s with jobId := updateJobId s.jobId m.id, isConnected := true }
    | _ => { s with currentText := (processTranscription s.currentText m).1 }
  | WsEvent.malformed => s
  | WsEvent.socketError => s
  | WsEvent.close => { s with isConnected := false }

/-- The WebSocket handlers installed by the `groq-service.ts` copy of
`RevAiService.establishWebSocketConnection`: `onopen` sets
`isConnected := true` immediately; `onmessage` ignores everything while not
connected and no longer touches `isConnected` on the `connected` message;
`onerror` and `onclose` clear `isConnected`. -/
def stepB (s : SvcState) (e : WsEvent) : SvcState :=
  match e with
  | WsEvent.opened => { s with isConnected := true }
  | WsEvent.message m =>
    if s.isConnected = false then s
    else
      match m.type with
      | MsgType.connected => { s with jobId := updateJobId s.jobId m.id }
      | _ => { s with currentText := (processTranscription s.currentText m).1 }
  | WsEvent.malformed => s
  | WsEvent.socketError => { s with isConnected := false }
  | WsEvent.close => { s with isConnected := false }

/-- `RevAiService.isReady()`: `return this.isConnected`. -/
def isReady (s : SvcState) : Bool := s.isConnected

/-- State right after `connect()` created the socket: `currentText` was reset,
the socket object exists, and `isConnected` still has its initial `false`
value (`jobId` keeps whatever a previous session left). -/
def initialConnState (j : Option Str) : SvcState := ⟨some (), false, [], j⟩

/-- Is this event the arrival of an explicit `connected` control message? -/
def isConnectedMsg (e : WsEvent) : Bool :=
  match e with
  | WsEvent.message m => m.type = MsgType.connected
  | _ => false

/-- `RevAiService.disconnect()` in `rev-ai-service.ts`: only when a socket
exists, close it and reset socket, ready flag and job id — `currentText` is
not touched. -/
def disconnectA (s : SvcState) : SvcState :=
  match s.websocket with
  | some _ => { s with websocket := none, isConnected := false, jobId := none }
  | none => s

/-- `RevAiService.disconnect()` in `groq-service.ts`: unconditionally resets
socket, ready flag, text buffer and job id (the close/end-of-stream calls are
external effects that do not touch these fields). -/
def disconnectB (s : SvcState) : SvcState :=
  { s with websocket := none, isConnected := false, currentText := [],
           jobId := none }

/-- `RevAiService.sendAudioChunk` (identical guards in both copies): throw
when not connected or no socket; silently skip empty chunks; otherwise
transmit.  The `Bool` records whether the chunk was transmitted (the
asynchronous `arrayBuffer().then` re-checks the flags, which in this
synchronous model still hold). -/
def sendAudioChunk (s : SvcState) (size : Nat) : Except Str (SvcState × Bool) :=
  if s.isConnected = false ∨ s.websocket = none then
    Except.error "Not connected to Rev.ai. Call connect() first.".toList
  else if size = 0 then Except.ok (s, false)
  else Except.ok (s, true)

/-! ## Claim C5 -/

/-- **C5** (counterexample).  The claim fails for the `groq-service.ts` copy of
the stream client: its `onopen` handler sets the ready flag as soon as the
socket opens, before any `connected` control message has been received. -/
theorem c5_counterexample :
    isReady (stepB (initialConnState none) WsEvent.opened) = true ∧
      isConnectedMsg WsEvent.opened = false := by
  exact ⟨rfl, rfl⟩

/-- **C5** (amended).  For the `rev-ai-service.ts` stream client the claim
holds: starting from any state that is not ready (in particular the state
right after `connect()` opened the socket), no sequence of WebSocket events
that contains no `connected` control message — socket open, partial/final
messages, malformed messages, errors, closes — can make `isReady()` return
`true`.  The `groq-service.ts` copy instead becomes ready on socket open alone
(see the counterexample). -/
theorem c5_amended_ready_requires_connected (evs : List WsEvent) (s : SvcState)
    (h0 : isReady s = false)
    (hno : evs.all (fun e => !isConnectedMsg e) = true) :
    isReady (evs.foldl stepA s) = false := by
  induction evs generalizing s with
  | nil => exact h0
  | cons e evs ih =>
    rw [List.all_cons, Bool.and_eq_true] at hno
    obtain ⟨he, hrest⟩ := hno
    rw [List.foldl_cons]
    refine ih (stepA s e) ?_ hrest
    cases e with
    | opened => exact h0
    | message m =>
      cases hty : m.type with
      | connected =>
        rw [isConnectedMsg] at he
        rw [hty] at he
        simp at he
      | interim =>
        simp only [stepA, hty, isReady]
        exact h0
      | final =>
        simp only [stepA, hty, isReady]
        exact h0
    | malformed => exact h0
    | socketError => exact h0
    | close => simp [stepA, isReady]

/-- Witness for C5 (amended): after socket open, two transcript messages, a
malformed message and an error — but no `connected` message — the
`rev-ai-service.ts` client is still not ready. -/
theorem c5_amended_witness :
    isReady (initialConnState none) = false ∧
      ([WsEvent.opened, WsEvent.message (mkMsg MsgType.interim "hi".toList),
          WsEvent.malformed, WsEvent.message (mkMsg MsgType.final "hi".toList),
          WsEvent.socketError].all (fun e => !isConnectedMsg e) = true) ∧
      isReady
        (([WsEvent.opened, WsEvent.message (mkMsg MsgType.interim "hi".toList),
          WsEvent.malformed, WsEvent.message (mkMsg MsgType.final "hi".toList),
          WsEvent.socketError]).foldl stepA (initialConnState none)) = false := by
  refine ⟨rfl, by decide, ?_⟩
  exact c5_amended_ready_requires_connected
    [WsEvent.opened, WsEvent.message (mkMsg MsgType.interim "hi".toList),
      WsEvent.malformed, WsEvent.message (mkMsg MsgType.final "hi".toList),
      WsEvent.socketError] (initialConnState none) rfl (by decide)

/-! ## Claim C7 -/

/-- **C7** (counterexample).  The claim fails for the `rev-ai-service.ts`
client: its `disconnect()` resets socket, ready flag and job id but does not
clear the running-transcript buffer, which keeps its non-empty value. -/
theorem c7_counterexample :
    (disconnectA ⟨some (), true, "hello".toList, some "job1".toList⟩).currentText =
        "hello".toList ∧
      "hello".toList ≠ ([] : Str) := by
  exact ⟨rfl, by decide⟩

/-- **C7** (amended).  After `disconnect()` of the `groq-service.ts` client all
four per-session fields are reset (socket released, ready flag false, job id
cleared, text buffer empty).  After `disconnect()` of the `rev-ai-service.ts`
client the text buffer always keeps its previous value, and — when a socket
was present — the socket is released, the ready flag cleared and the job id
cleared; the text buffer is only reset by the next `connect()`. -/
theorem c7_amended_disconnect_reset (s : SvcState) :
    (disconnectB s).websocket = none ∧ isReady (disconnectB s) = false ∧
      (disconnectB s).jobId = none ∧ (disconnectB s).currentText = [] ∧
      (disconnectA s).currentText = s.currentText ∧
      (s.websocket ≠ none →
        (disconnectA s).websocket = none ∧ isReady (disconnectA s) = false ∧
          (disconnectA s).jobId = none) := by
  refine ⟨rfl, rfl, rfl, rfl, ?_, ?_⟩
  · cases h : s.websocket <;> simp [disconnectA, h]
  · intro hws
    cases h : s.websocket with
    | none => exact absurd h hws
    | some u => simp [disconnectA, h, isReady]

/-- Witness for C7 (amended), at a fully populated session state. -/
theorem c7_amended_witness :
    (disconnectA ⟨some (), true, "hi there".toList, some "j9".toList⟩).jobId =
        none ∧
      (disconnectA ⟨some (), true, "hi there".toList,
          some "j9".toList⟩).currentText = "hi there".toList ∧
      (disconnectB ⟨some (), true, "hi there".toList,
          some "j9".toList⟩).currentText = [] := by
  have h := c7_amended_disconnect_reset
    ⟨some (), true, "hi there".toList, some "j9".toList⟩
  exact ⟨(h.2.2.2.2.2 (by simp)).2.2, h.2.2.2.2.1, h.2.2.2.1⟩

/-! ## Claim C10 -/

/-- **C10** (confirmed).  `sendAudioChunk`: without a connection or socket it
throws and transmits nothing; connected with an empty chunk it returns
normally without transmitting; a chunk is transmitted only when connected with
a socket and a positive size. -/
theorem c10_sendAudioChunk_contract (s : SvcState) (size : Nat) :
    ((s.isConnected = false ∨ s.websocket = none) →
      sendAudioChunk s size =
        Except.error "Not connected to Rev.ai. Call connect() first.".toList) ∧
      (s.isConnected = true → s.websocket ≠ none → size = 0 →
        sendAudioChunk s size = Except.ok (s, false)) ∧
      (∀ s2, sendAudioChunk s size = Except.ok (s2, true) →
        s.isConnected = true ∧ s.websocket ≠ none ∧ 0 < size) := by
  refine ⟨?_, ?_, ?_⟩
  · intro h
    rw [sendAudioChunk, if_pos h]
  · intro hconn hws hsize
    rw [sendAudioChunk, if_neg, if_pos hsize]
    rintro (h | h)
    · rw [hconn] at h; cases h
    · exact hws h
  · intro s2 h
    by_cases hguard : s.isConnected = false ∨ s.websocket = none
    · rw [sendAudioChunk, if_pos hguard] at h
      cases h
    · push_neg at hguard
      obtain ⟨hconn, hws⟩ := hguard
      by_cases hsize : size = 0
      · rw [sendAudioChunk, if_neg, if_pos hsize] at h
        · cases h
        · rintro (h2 | h2)
          · exact hconn h2
          · exact hws h2
      · exact ⟨eq_true_of_ne_false hconn, hws, Nat.pos_of_ne_zero hsize⟩

/-- Witness for C10: the three contract clauses evaluated at concrete states —
disconnected with a 3-byte chunk, connected with an empty chunk, connected
with a 5-byte chunk. -/
theorem c10_witness :
    sendAudioChunk ⟨none, false, [], none⟩ 3 =
        Except.error "Not connected to Rev.ai. Call connect() first.".toList ∧
      sendAudioChunk ⟨some (), true, [], none⟩ 0 =
        Except.ok (⟨some (), true, [], none⟩, false) ∧
      (SvcState.mk (some ()) true [] none).isConnected = true ∧ 0 < 5 := by
  have h1 := c10_sendAudioChunk_contract ⟨none, false, [], none⟩ 3
  have h2 := c10_sendAudioChunk_contract ⟨some (), true, [], none⟩ 0
  have h3 := c10_sendAudioChunk_contract ⟨some (), true, [], none⟩ 5
  refine ⟨h1.1 (Or.inl rfl), h2.2.1 rfl (by simp) rfl, ?_, ?_⟩
  · exact (h3.2.2 ⟨some (), true, [], none⟩ rfl).1
  · exact (h3.2.2 ⟨some (), true, [], none⟩ rfl).2.2

/-! ## The audio capture unit

Two versions of `AudioRecorder` exist in the repository: the plain one in
`audio-recorder.ts` and the enhanced one (source part_005) with stall
recovery.  `RecEffect` records the externally visible recorder operations. -/

inductive MRState
  | recording
  | paused
  | inactive
  deriving DecidableEq, Repr

inductive RecEffect
  | stopRecorder
  | requestData
  | recreateRecorder (mime : Str)
  deriving DecidableEq, Repr

/-- State of the plain `audio-recorder.ts` recorder: the `MediaRecorder`
handle with its state, the stream handle, and the log of issued recorder
operations. -/
structure RecorderState where
  mediaRecorder : Option MRState
  stream : Bool
  effects : List RecEffect
  deriving DecidableEq, Repr

/-- `AudioRecorder.stopRecording` in `audio-recorder.ts`:
`if (this.mediaRecorder && this.mediaRecorder.state !== 'inactive')
this.mediaRecorder.stop()` (stopping moves the recorder to `inactive`; the
asynchronous `onstop` callback is outside this claim's scope). -/
def stopRecordingSimple (s : RecorderState) : RecorderState :=
  match s.mediaRecorder with
  | some st =>
    if st ≠ MRState.inactive then
      { s with mediaRecorder := some MRState.inactive,
               effects := s.effects ++ [RecEffect.stopRecorder] }
    else s
  | none => s

/-- State of the enhanced recorder (part_005): recorder handle with state and
mime type, collected chunks, stream-active flag, the chunk data handed to the
`onDataAvailable` callback, and the operation log.  Chunks are byte lists. -/
structure Recorder5State where
  mediaRecorder : Option (MRState × Str)
  audioChunks : List (List Nat)
  streamActive : Bool
  emitted : List (List Nat)
  effects : List RecEffect
  deriving DecidableEq, Repr

/-- `AudioRecorder.createDummyAudioChunk` (part_005): push a 4-byte
`[0,0,0,0]` blob onto `audioChunks` and hand it to `onDataAvailable`. -/
def createDummyAudioChunk (s : Recorder5State) : Recorder5State :=
  { s with audioChunks := s.audioChunks ++ [[0, 0, 0, 0]],
           emitted := s.emitted ++ [[0, 0, 0, 0]] }

/-- `AudioRecorder.stopRecording` (part_005): only when recording or paused —
request a final chunk while recording, inject a dummy chunk when none were
collected, then stop (the 200 ms delayed `stop()` re-checks the same guard,
modelled as the stop happening). -/
def stopRecording5 (s : Recorder5State) : Recorder5State :=
  match s.mediaRecorder with
  | some (st, m) =>
    if st = MRState.recording ∨ st = MRState.paused then
      let s1 :=
        if st = MRState.recording then
          { s with effects := s.effects ++ [RecEffect.requestData] }
        else s
      let s2 := if s1.audioChunks = [] then createDummyAudioChunk s1 else s1
      { s2 with mediaRecorder := some (MRState.inactive, m),
                effects := s2.effects ++ [RecEffect.stopRecorder] }
    else s
  | none => s

/-- The 500 ms safety timer of `startRecording` (part_005): if still recording
with no chunks, force `requestData()`. -/
def graceTimer500 (s : Recorder5State) : Recorder5State :=
  match s.mediaRecorder with
  | some (MRState.recording, _) =>
    if s.audioChunks = [] then
      { s with effects := s.effects ++ [RecEffect.requestData] }
    else s
  | _ => s

/-- The 1000 ms safety timer (part_005): same check and `requestData()` again
(plus logging). -/
def graceTimer1000 (s : Recorder5State) : Recorder5State :=
  match s.mediaRecorder with
  | some (MRState.recording, _) =>
    if s.audioChunks = [] then
      { s with effects := s.effects ++ [RecEffect.requestData] }
    else s
  | _ => s

/-- The 2000 ms safety timer (part_005): if still recording with no chunks,
stop the stalled recorder and, after a 200 ms delay, recreate it with the
fallback `audio/webm` format when the stream is still active and construction
succeeds; in every branch inject the placeholder chunk.
`streamActiveAtRestart` is the value of `stream.active` when the inner 200 ms
callback fires, `ctorOk` whether `new MediaRecorder` succeeds. -/
def graceTimer2000 (streamActiveAtRestart ctorOk : Bool) (s : Recorder5State) :
    Recorder5State :=
  match s.mediaRecorder with
  | some (MRState.recording, m) =>
    if s.audioChunks = [] then
      let s1 := { s with mediaRecorder := some (MRState.inactive, m),
                         effects := s.effects ++ [RecEffect.stopRecorder] }
      if streamActiveAtRestart then
        if ctorOk then
          createDummyAudioChunk
            { s1 with
                mediaRecorder := some (MRState.recording, "audio/webm".toList),
                effects := s1.effects ++
                  [RecEffect.recreateRecorder "audio/webm".toList] }
        else createDummyAudioChunk s1
      else createDummyAudioChunk s1
    else s
  | _ => s

/-- The whole escalating stall-recovery chain of `startRecording` when no
chunk ever arrives: the 500 ms, 1000 ms and 2000 ms timers in order. -/
def stallRecovery (streamActiveAtRestart ctorOk : Bool) (s : Recorder5State) :
    Recorder5State :=
  graceTimer2000 streamActiveAtRestart ctorOk (graceTimer1000 (graceTimer500 s))

/-! ## Claim C6 -/

/-- **C6** (confirmed).  When no audio chunk has been collected and the
recorder is still recording, the escalating grace checks force a data request
at 500 ms and 1000 ms, tear the encoder down at 2000 ms, recreate it with the
fallback `audio/webm` format when the stream is still active and construction
succeeds, and in every branch emit the minimal 4-byte placeholder chunk
through the chunk callback — so the downstream pipeline always receives at
least one chunk.  No error is surfaced (the recorder has no error callback;
failures are only logged). -/
theorem c6_stall_recovery (s : Recorder5State) (m : Str) (sa ok : Bool)
    (hrec : s.mediaRecorder = some (MRState.recording, m))
    (hempty : s.audioChunks = []) :
    (stallRecovery sa ok s).emitted = s.emitted ++ [[0, 0, 0, 0]] ∧
      ([0, 0, 0, 0] : List Nat).length = 4 ∧
      (stallRecovery sa ok s).effects =
        s.effects ++ [RecEffect.requestData, RecEffect.requestData,
            RecEffect.stopRecorder] ++
          (if sa = true ∧ ok = true then
            [RecEffect.recreateRecorder "audio/webm".toList]
          else []) ∧
      (stallRecovery sa ok s).audioChunks ≠ [] := by
  cases s with
  | mk mr chunks stream emitted effects =>
    simp only at hrec hempty
    subst hrec hempty
    cases sa <;> cases ok <;>
      simp [stallRecovery, graceTimer500, graceTimer1000, graceTimer2000,
        createDummyAudioChunk]

/-- Witness for C6: the stall recovery run from a freshly started, stalled
recorder with the stream still active and a successful fallback restart. -/
theorem c6_witness :
    (stallRecovery true true
        ⟨some (MRState.recording, "audio/webm;codecs=opus".toList), [], true,
          [], []⟩).emitted = [[0, 0, 0, 0]] ∧
      (stallRecovery true true
        ⟨some (MRState.recording, "audio/webm;codecs=opus".toList), [], true,
          [], []⟩).effects =
        [RecEffect.requestData, RecEffect.requestData, RecEffect.stopRecorder,
          RecEffect.recreateRecorder "audio/webm".toList] := by
  have h := c6_stall_recovery
    ⟨some (MRState.recording, "audio/webm;codecs=opus".toList), [], true, [],
      []⟩ "audio/webm;codecs=opus".toList true true rfl rfl
  refine ⟨by simpa using h.1, ?_⟩
  have h2 := h.2.2.1
  simpa using h2

/-! ## Claim C9 -/

/-- **C9** (confirmed).  Teardown is idempotent: `disconnect()` twice equals
`disconnect()` once for both stream-client versions, and `stopRecording()` on
an already-stopped or never-started recorder — in either recorder version —
changes nothing and issues no operation. -/
theorem c9_teardown_idempotent :
    (∀ s : SvcState, disconnectA (disconnectA s) = disconnectA s) ∧
      (∀ s : SvcState, disconnectB (disconnectB s) = disconnectB s) ∧
      (∀ s : RecorderState,
        s.mediaRecorder = none ∨ s.mediaRecorder = some MRState.inactive →
          stopRecordingSimple s = s) ∧
      (∀ s : Recorder5State,
        s.mediaRecorder = none ∨
            (∃ m, s.mediaRecorder = some (MRState.inactive, m)) →
          stopRecording5 s = s) := by
  refine ⟨?_, ?_, ?_, ?_⟩
  · intro s
    cases h : s.websocket <;> simp [disconnectA, h]
  · intro s
    rfl
  · intro s h
    rcases h with h | h <;> simp [stopRecordingSimple, h]
  · intro s h
    rcases h with h | ⟨m, h⟩ <;> simp [stopRecording5, h]

/-- Witness for C9: double disconnect and stop-when-stopped at concrete
states. -/
theorem c9_witness :
    stopRecordingSimple ⟨some MRState.inactive, false, []⟩ =
        ⟨some MRState.inactive, false, []⟩ ∧
      stopRecording5 ⟨none, [], false, [], []⟩ = ⟨none, [], false, [], []⟩ ∧
      disconnectA (disconnectA ⟨some (), true, "hi".toList, some "j".toList⟩) =
        disconnectA ⟨some (), true, "hi".toList, some "j".toList⟩ := by
  have h := c9_teardown_idempotent
  exact ⟨h.2.2.1 _ (Or.inr rfl), h.2.2.2 _ (Or.inl rfl), h.1 _⟩

/-! ## The session state controller (`page.tsx`)

`handleStopRecording` installs three fallback timers (2 s, 3 s, 4 s).  In the
React function component, each timer callback closes over the
`recordingState` / `transcription` values of the render in which the stop
click was handled (`cap` below — a click while recording captures
`recording`), while the `set...` calls act on the live component state
(`cur` below).  A separate effect hook re-runs with fresh values and promotes
`stopping` to `recorded` when transcription text exists. -/

inductive PageRState
  | idle
  | recording
  | stopping
  | recorded
  deriving DecidableEq, Repr

structure PageState where
  recordingState : PageRState
  transcription : Str
  errorMsg : Option Str
  deriving DecidableEq, Repr

def processingMsg : Str :=
  "Processing audio... If nothing happens in a few seconds, please try again.".toList

def noTranscriptionMsg : Str :=
  "No transcription received. Please check your microphone and try again.".toList

/-- The 2000 ms check: `if (recordingState === 'stopping' &&
!transcription.trim()) setError(...)`. -/
def stopTimer2s (cap cur : PageState) : PageState :=
  if cap.recordingState = PageRState.stopping ∧ jsTrim cap.transcription = [] then
    { cur with errorMsg := some processingMsg }
  else cur

/-- The 3000 ms check: promote to `recorded` when transcription text exists. -/
def stopTimer3s (cap cur : PageState) : PageState :=
  if cap.recordingState = PageRState.stopping then
    if jsTrim cap.transcription ≠ [] then
      { cur with recordingState := PageRState.recorded, errorMsg := none }
    else cur
  else cur

/-- The 4000 ms force timeout: promote to `recorded` when transcription text
exists, otherwise report "no transcription" and reset to `idle`. -/
def stopTimer4s (cap cur : PageState) : PageState :=
  if cap.recordingState = PageRState.stopping then
    if jsTrim cap.transcription ≠ [] then
      { cur with recordingState := PageRState.recorded, errorMsg := none }
    else
      { cur with recordingState := PageRState.idle,
                 errorMsg := some noTranscriptionMsg }
  else cur

/-- The synchronous part of `handleStopRecording`:
`setRecordingState('stopping')`. -/
def handleStopClick (cap : PageState) : PageState :=
  { cap with recordingState := PageRState.stopping }

/-- The three fallback timers firing in order, all closed over the same
captured render state `cap`. -/
def runStopTimers (cap cur : PageState) : PageState :=
  stopTimer4s cap (stopTimer3s cap (stopTimer2s cap cur))

/-- The auto-transition effect hook (page.tsx lines 118–135), which re-runs on
every state change and therefore reads fresh values. -/
def autoTransitionEffect (cur : PageState) : PageState :=
  if cur.recordingState = PageRState.stopping ∧ jsTrim cur.transcription ≠ [] then
    { cur with recordingState := PageRState.recorded }
  else cur

/-! ## Claim C4 -/

/-- **C4** (code bug).  Stop is clicked while recording and the service never
produces any transcript text.  The click handler was created in a render with
`recordingState = recording`, so all three fallback timers compare that stale
captured value against `'stopping'` and do nothing: the session stays in
`stopping` forever with no error, instead of returning to `idle` with the
"no transcription" error as the claim (and the code's own comments — "This
prevents the UI from getting stuck in 'stopping' state") require.  The second
conjunct shows the intended behaviour: had the timers read the live state
(captured value `stopping`), the 4 s fallback would reset to `idle` with the
no-speech error. -/
theorem c4_code_bug_eval :
    runStopTimers ⟨PageRState.recording, [], none⟩
        (handleStopClick ⟨PageRState.recording, [], none⟩) =
      ⟨PageRState.stopping, [], none⟩ ∧
      runStopTimers ⟨PageRState.stopping, [], none⟩
          ⟨PageRState.stopping, [], none⟩ =
        ⟨PageRState.idle, [], some noTranscriptionMsg⟩ ∧
      autoTransitionEffect ⟨PageRState.stopping, [], none⟩ =
        ⟨PageRState.stopping, [], none⟩ := by
  refine ⟨by decide, by decide, by decide⟩

/-! ## Feedback and sentiment submission

`handleSubmitRecording` in `src/app/page.tsx` is the pre-sentiment version.
The sentiment-integrated version described by the spec and by
`sentiment-analysis-implementation.md` ("Modified handleSubmitRecording ... to
submit transcription for sentiment analysis in parallel with language
feedback") is not under `src/`; only its collaborators are — the
`RevAiSentimentService` (part_006) and the `FeedbackCard` reading
`feedback.sentiment`.  `calculateSentimentSummary` below is embedded from the
part_006 source; the submission handler itself is modelled from the spec. -/

inductive SentKind
  | positive
  | negative
  | neutral
  deriving DecidableEq, Repr

/-- A `SentimentMessage` (part_006): scores as rationals. -/
structure SentimentMessage where
  content : Str
  score : ℚ
  sentiment : SentKind
  deriving DecidableEq, Repr

/-- A `SentimentSummary` (part_006). -/
structure SentimentSummary where
  overall : SentKind
  score : ℚ
  details : List SentimentMessage
  deriving DecidableEq, Repr

/-- `RevAiSentimentService.calculateSentimentSummary` (part_006): neutral zero
summary for no messages, otherwise the content-length-weighted average score
with the ±0.2 thresholds (the positive/negative/neutral counters in the
source are only logged). -/
def calculateSentimentSummary (messages : List SentimentMessage) :
    SentimentSummary :=
  if messages = [] then ⟨SentKind.neutral, 0, []⟩
  else
    let p := messages.foldl
      (fun (q : ℚ × ℚ) msg =>
        (q.1 + msg.score * msg.content.length, q.2 + msg.content.length))
      (0, 0)
    let avg := if p.2 > 0 then p.1 / p.2 else 0
    let overall :=
      if avg > 1 / 5 then SentKind.positive
      else if avg < -(1 / 5) then SentKind.negative
      else SentKind.neutral
    ⟨overall, avg, messages⟩

/-- A `FeedbackResponse` (groq-service.ts). -/
structure FeedbackResponse where
  strengths : List Str
  improvements : List Str
  overallFeedback : Str
  deriving DecidableEq, Repr

/-- The placeholder feedback shown by the page when the feedback request
fails. -/
def fallbackFeedback : FeedbackResponse :=
  ⟨[],
    ["Unable to analyze your response due to a technical issue.".toList],
    "Please try again later or contact support if the problem persists.".toList⟩

/-- Inputs of one submit action: the guards read by the page and the outcomes
of the two independent collaborator calls. -/
structure SubmitEnv where
  scenarioSelected : Bool
  transcription : Str
  groqAvailable : Bool
  feedbackOutcome : Except Str FeedbackResponse
  sentimentOutcome : Except Str (List SentimentMessage)

/-- Observable result of one submit action. -/
structure SubmitOutcome where
  feedbackRequests : Nat
  sentimentRequests : Nat
  shownFeedback : Option FeedbackResponse
  shownSentiment : Option SentimentSummary
  errorShown : Bool
  deriving DecidableEq, Repr

/-- Modelled from the spec: the sentiment-integrated `handleSubmitRecording`
is missing from `src/` (the checked-in `page.tsx` is the pre-sentiment
version, while `sentiment-analysis-implementation.md` and the `FeedbackCard`
consuming `feedback.sentiment` witness the integrated one).  Per spec §4.3:
submission sends the accumulated transcript to the feedback collaborator and,
independently and in parallel, to the sentiment collaborator; feedback display
proceeds as soon as it returns, independent of the sentiment outcome;
sentiment failure is non-fatal and leaves the sentiment section absent.  The
guards (scenario selected, non-empty trimmed transcript, feedback API
available) and the fallback feedback come from the checked-in handler. -/
def handleSubmitRecordingModelled (env : SubmitEnv) : SubmitOutcome :=
  if env.scenarioSelected = false then ⟨0, 0, none, none, true⟩
  else if jsTrim env.transcription = [] then ⟨0, 0, none, none, true⟩
  else if env.groqAvailable = false then ⟨0, 0, none, none, true⟩
  else
    let shownFb :=
      match env.feedbackOutcome with
      | Except.ok r => r
      | Except.error _ => fallbackFeedback
    let shownSent :=
      match env.sentimentOutcome with
      | Except.ok msgs => some (calculateSentimentSummary msgs)
      | Except.error _ => none
    let errOnFb :=
      match env.feedbackOutcome with
      | Except.ok _ => false
      | Except.error _ => true
    ⟨1, 1, some shownFb, shownSent, errOnFb⟩

/-! ## Claim C8 -/

/-- **C8** (confirmed against the spec-modelled handler).  Submitting with a
scenario selected, a non-empty transcript and the feedback API available
issues exactly one feedback request and one parallel sentiment request; the
feedback shown is the same whatever the sentiment outcome is, and a sentiment
failure leaves the sentiment section absent. -/
theorem c8_submit_feedback_once (env : SubmitEnv)
    (hs : env.scenarioSelected = true) (ht : jsTrim env.transcription ≠ [])
    (hg : env.groqAvailable = true) :
    (handleSubmitRecordingModelled env).feedbackRequests = 1 ∧
      (handleSubmitRecordingModelled env).sentimentRequests = 1 ∧
      (∀ alt,
        (handleSubmitRecordingModelled
            { env with sentimentOutcome := alt }).shownFeedback =
          (handleSubmitRecordingModelled env).shownFeedback) ∧
      (∀ e, env.sentimentOutcome = Except.error e →
        (handleSubmitRecordingModelled env).shownSentiment = none) := by
  have hs2 : env.scenarioSelected = false → False := by
    intro h; rw [hs] at h; cases h
  have hg2 : env.groqAvailable = false → False := by
    intro h; rw [hg] at h; cases h
  refine ⟨?_, ?_, ?_, ?_⟩
  · rw [handleSubmitRecordingModelled, if_neg hs2, if_neg ht, if_neg hg2]
  · rw [handleSubmitRecordingModelled, if_neg hs2, if_neg ht, if_neg hg2]
  · intro alt
    rw [handleSubmitRecordingModelled, if_neg hs2, if_neg ht, if_neg hg2,
      handleSubmitRecordingModelled]
    rw [if_neg hs2, if_neg ht, if_neg hg2]
  · intro e he
    rw [handleSubmitRecordingModelled, if_neg hs2, if_neg ht, if_neg hg2]
    simp [he]

/-- Witness for C8: a concrete submit with a failing sentiment collaborator
next to one with a succeeding sentiment collaborator — same feedback shown,
absent sentiment section on failure. -/
theorem c8_witness :
    (handleSubmitRecordingModelled
        ⟨true, "good morning".toList, true,
          Except.ok ⟨[], [], "well done".toList⟩,
          Except.error "http 500".toList⟩).feedbackRequests = 1 ∧
      (handleSubmitRecordingModelled
          ⟨true, "good morning".toList, true,
            Except.ok ⟨[], [], "well done".toList⟩,
            Except.error "http 500".toList⟩).shownSentiment = none ∧
      (handleSubmitRecordingModelled
          ⟨true, "good morning".toList, true,
            Except.ok ⟨[], [], "well done".toList⟩,
            Except.error "http 500".toList⟩).shownFeedback =
        (handleSubmitRecordingModelled
          ⟨true, "good morning".toList, true,
            Except.ok ⟨[], [], "well done".toList⟩,
            Except.ok [⟨"good morning".toList, 1/2, SentKind.positive⟩]⟩).shownFeedback := by
  have h := c8_submit_feedback_once
    ⟨true, "good morning".toList, true,
      Except.ok ⟨[], [], "well done".toList⟩, Except.error "http 500".toList⟩
    rfl (by decide) rfl
  refine ⟨h.1, h.2.2.2 "http 500".toList rfl, ?_⟩
  have h3 := h.2.2.1 (Except.ok [⟨"good morning".toList, 1/2, SentKind.positive⟩])
  exact h3.symm

end BComms
